import Mathlib

/-!
Verification of the recursive path-search routine `path_search` from `Q1.py`
of the repository, shallowly embedded in Lean 4.

The Python function is

```
def path_search(start, end, graph):
    if start == end:
        return [start]
    if graph[start] == []:
        return None
    for neighbor_node in graph[start]:
        path = path_search(neighbor_node, end, graph)
        if path is not None:
          return [start] + path
```

The embedding makes the implicit effects of the Python code explicit:
- a missing dictionary key (`graph[start]` with `start` not a key) raises
  `KeyError`, modelled by the `Except` error `Err.keyError`;
- the function recurses without any visited set, so on cyclic graphs it can
  recurse forever (in CPython: `RecursionError`); recursion depth is modelled
  by a fuel parameter, and exhausting it yields `Err.outOfFuel` — a run that
  returns `Err.outOfFuel` for every fuel value is a run that never terminates;
- falling off the end of the `for` loop returns Python's implicit `None`,
  modelled by `.ok none`.
-/

namespace Q1

/-- Node identifiers are integers (per the docstring of `path_search`). -/
abbrev Node := Int

/-- The graph: a Python dict from node to adjacency list, modelled as an
association list with unique keys. -/
abbrev Graph := List (Node × List Node)

/-- The two abnormal outcomes of a call: a `KeyError` from `graph[start]`
with a missing key, and exhaustion of the recursion budget (in CPython a
`RecursionError`; over all fuels, divergence). -/
inductive Err where
  | keyError
  | outOfFuel
deriving DecidableEq

/-- Outcome of a call to `path_search`: an exception, or a normal return of
`None` (`.ok none`) or of a list (`.ok (some p)`). -/
abbrev Res := Except Err (Option (List Node))

instance {ε α : Type} [DecidableEq ε] [DecidableEq α] : DecidableEq (Except ε α) := fun x y =>
  match x, y with
  | .error a, .error b =>
    if h : a = b then .isTrue (by rw [h]) else .isFalse (fun hh => by cases hh; exact h rfl)
  | .error _, .ok _ => .isFalse (fun hh => by cases hh)
  | .ok _, .error _ => .isFalse (fun hh => by cases hh)
  | .ok a, .ok b =>
    if h : a = b then .isTrue (by rw [h]) else .isFalse (fun hh => by cases hh; exact h rfl)

/-- `graph[k]` as a total function: `none` models a `KeyError`. -/
def lookup : Graph → Node → Option (List Node)
  | [], _ => none
  | (a, ns) :: rest, k => if k = a then some ns else lookup rest k

/-- The `for neighbor_node in graph[start]` loop of `path_search`: try each
neighbor in order with the recursive search `rec`; on the first non-`None`
result return `[start] + path`; exceptions propagate; falling off the end of
the loop returns Python's implicit `None`. -/
def searchNbrs (rec : Node → Res) (start : Node) : List Node → Res
  | [] => .ok none
  | n :: rest =>
    match rec n with
    | .error e => .error e
    | .ok (some p) => .ok (some (start :: p))
    | .ok none => searchNbrs rec start rest

/-- `path_search(start, end, graph)` from `Q1.py`, with an explicit fuel
bound on the recursion depth. -/
def path_search : Nat → Node → Node → Graph → Res
  | 0, _, _, _ => .error .outOfFuel
  | f + 1, start, fin, g =>
    if start = fin then .ok (some [start])
    else
      match lookup g start with
      | none => .error .keyError
      | some nbrs =>
        if nbrs = [] then .ok none
        else searchNbrs (fun n => path_search f n fin g) start nbrs

/-- The sample graph `GRAPH` of `Q1.py`. -/
def GRAPH : Graph := [(1, [2, 4]), (2, [5, 4, 1]), (3, []), (4, [6, 3]), (5, []), (6, [1, 3])]

/-- A two-node cycle `{1: [2], 2: [1]}` with node `3` absent: the spec's
example of a cycle reachable from the start that never reaches the end. -/
def cycleGraph : Graph := [(1, [2]), (2, [1])]

/-- A two-node line `{0: [1], 1: []}`: from `0` every search of a node other
than `0` or `1` exhausts all neighbors and falls through. -/
def lineG : Graph := [(0, [1]), (1, [])]

/-- `y` is listed among the neighbors of `x` in `g` (a directed edge). -/
def isEdge (g : Graph) (x y : Node) : Prop := y ∈ (lookup g x).getD []

instance (g : Graph) (x y : Node) : Decidable (isEdge g x y) :=
  inferInstanceAs (Decidable (y ∈ (lookup g x).getD []))

/-- Every neighbor listed anywhere in `g` is itself a key of `g`. -/
def keysClosed (g : Graph) : Prop := ∀ p ∈ g, ∀ b ∈ p.2, (lookup g b).isSome

instance (g : Graph) : Decidable (keysClosed g) :=
  inferInstanceAs (Decidable (∀ p ∈ g, ∀ b ∈ p.2, (lookup g b).isSome))

/-! ### Basic equations and case lemmas for `path_search` -/

theorem searchNbrs_nil (rec : Node → Res) (s : Node) : searchNbrs rec s [] = .ok none := rfl

theorem searchNbrs_cons (rec : Node → Res) (s n : Node) (rest : List Node) :
    searchNbrs rec s (n :: rest) =
      match rec n with
      | .error e => .error e
      | .ok (some p) => .ok (some (s :: p))
      | .ok none => searchNbrs rec s rest := rfl

theorem path_search_zero (a b : Node) (g : Graph) :
    path_search 0 a b g = .error .outOfFuel := rfl

theorem path_search_succ (f : Nat) (a b : Node) (g : Graph) :
    path_search (f + 1) a b g =
      if a = b then .ok (some [a])
      else
        match lookup g a with
        | none => .error .keyError
        | some nbrs =>
          if nbrs = [] then .ok none
          else searchNbrs (fun n => path_search f n b g) a nbrs := rfl

theorem path_search_self (f : Nat) (a : Node) (g : Graph) :
    path_search (f + 1) a a g = .ok (some [a]) := by
  rw [path_search_succ, if_pos rfl]

theorem path_search_keyErr {a b : Node} {g : Graph} (f : Nat)
    (hab : a ≠ b) (hl : lookup g a = none) :
    path_search (f + 1) a b g = .error .keyError := by
  rw [path_search_succ, if_neg hab]
  simp only [hl]

theorem path_search_noNbrs {a b : Node} {g : Graph} (f : Nat)
    (hab : a ≠ b) (hl : lookup g a = some []) :
    path_search (f + 1) a b g = .ok none := by
  rw [path_search_succ, if_neg hab]
  simp [hl]

theorem path_search_loop {a b : Node} {g : Graph} {ns : List Node} (f : Nat)
    (hab : a ≠ b) (hl : lookup g a = some ns) (hns : ns ≠ []) :
    path_search (f + 1) a b g = searchNbrs (fun n => path_search f n b g) a ns := by
  rw [path_search_succ, if_neg hab]
  simp only [hl, if_neg hns]

/-! ### The `for` loop: all-`None` runs, skipping, and inversion -/

theorem searchNbrs_all_none {rec : Node → Res} {s : Node} :
    ∀ {ns : List Node}, (∀ n ∈ ns, rec n = .ok none) → searchNbrs rec s ns = .ok none := by
  intro ns
  induction ns with
  | nil => intro _; rfl
  | cons n rest ih =>
    intro h
    rw [searchNbrs_cons, h n (List.mem_cons_self n rest)]
    exact ih fun m hm => h m (List.mem_cons_of_mem n hm)

theorem searchNbrs_skip_none {rec : Node → Res} {s : Node} {ns1 : List Node}
    (h1 : ∀ m ∈ ns1, rec m = .ok none) (rest : List Node) :
    searchNbrs rec s (ns1 ++ rest) = searchNbrs rec s rest := by
  induction ns1 with
  | nil => rfl
  | cons m ms ih =>
    rw [List.cons_append, searchNbrs_cons, h1 m (List.mem_cons_self m ms)]
    exact ih fun m' hm' => h1 m' (List.mem_cons_of_mem m hm')

theorem searchNbrs_eq_some {rec : Node → Res} {s : Node} {P : List Node} :
    ∀ {ns : List Node}, searchNbrs rec s ns = .ok (some P) →
      ∃ n ∈ ns, ∃ p, rec n = .ok (some p) ∧ P = s :: p := by
  intro ns
  induction ns with
  | nil => intro h; exact absurd h (by simp [searchNbrs_nil])
  | cons n rest ih =>
    intro h
    rw [searchNbrs_cons] at h
    cases hr : rec n with
    | error e => rw [hr] at h; exact Except.noConfusion h
    | ok o =>
      cases o with
      | none =>
        rw [hr] at h
        obtain ⟨m, hm, p, hp, hP⟩ := ih h
        exact ⟨m, List.mem_cons_of_mem n hm, p, hp, hP⟩
      | some p =>
        rw [hr] at h
        have hinj : some (s :: p) = some P := Except.ok.inj h
        exact ⟨n, List.mem_cons_self n rest, p, hr, (Option.some.inj hinj).symm⟩

theorem path_search_eq_some {f : Nat} {a b : Node} {g : Graph} {P : List Node}
    (h : path_search f a b g = .ok (some P)) :
    (a = b ∧ P = [a]) ∨
      (a ≠ b ∧ ∃ f0, f = f0 + 1 ∧ ∃ ns, lookup g a = some ns ∧
        ∃ n ∈ ns, ∃ p, path_search f0 n b g = .ok (some p) ∧ P = a :: p) := by
  cases f with
  | zero => exact absurd h (by rw [path_search_zero]; exact fun hh => Except.noConfusion hh)
  | succ f0 =>
    by_cases hab : a = b
    · left
      rw [hab, path_search_self] at h
      have hinj : some [b] = some P := Except.ok.inj h
      exact ⟨hab, by rw [hab, (Option.some.inj hinj).symm]⟩
    · right
      cases hl : lookup g a with
      | none => rw [path_search_keyErr f0 hab hl] at h; exact Except.noConfusion h
      | some ns =>
        by_cases hns : ns = []
        · rw [hns] at hl
          rw [path_search_noNbrs f0 hab hl] at h
          exact absurd (Except.ok.inj h) (by simp)
        · rw [path_search_loop f0 hab hl hns] at h
          obtain ⟨n, hn, p, hp, hP⟩ := searchNbrs_eq_some h
          exact ⟨hab, f0, rfl, ns, rfl, n, hn, p, hp, hP⟩

/-! ### Fuel monotonicity of successful runs -/

theorem searchNbrs_mono_ok {rec1 rec2 : Node → Res}
    (hrec : ∀ n r, rec1 n = .ok r → rec2 n = .ok r) (s : Node) :
    ∀ {ns : List Node} {r : Option (List Node)},
      searchNbrs rec1 s ns = .ok r → searchNbrs rec2 s ns = .ok r := by
  intro ns
  induction ns with
  | nil => intro r h; exact h
  | cons n rest ih =>
    intro r h
    rw [searchNbrs_cons] at h ⊢
    cases hr : rec1 n with
    | error e => rw [hr] at h; exact Except.noConfusion h
    | ok o =>
      rw [hr] at h
      rw [hrec n o hr]
      cases o with
      | none => exact ih h
      | some p => exact h

theorem path_search_mono_succ :
    ∀ {f : Nat} {a b : Node} {g : Graph} {r : Option (List Node)},
      path_search f a b g = .ok r → path_search (f + 1) a b g = .ok r := by
  intro f
  induction f with
  | zero =>
    intro a b g r h
    exact absurd h (by rw [path_search_zero]; exact fun hh => Except.noConfusion hh)
  | succ f0 ih =>
    intro a b g r h
    by_cases hab : a = b
    · rw [hab, path_search_self] at h ⊢; exact h
    · cases hl : lookup g a with
      | none => rw [path_search_keyErr f0 hab hl] at h; exact Except.noConfusion h
      | some ns =>
        by_cases hns : ns = []
        · rw [hns] at hl
          rw [path_search_noNbrs f0 hab hl] at h
          rw [path_search_noNbrs (f0 + 1) hab hl]
          exact h
        · rw [path_search_loop f0 hab hl hns] at h
          rw [path_search_loop (f0 + 1) hab hl hns]
          exact searchNbrs_mono_ok (fun n r hr => ih hr) a h

theorem path_search_mono_le {f f' : Nat} (hle : f ≤ f') {a b : Node} {g : Graph}
    {r : Option (List Node)} (h : path_search f a b g = .ok r) :
    path_search f' a b g = .ok r := by
  induction hle with
  | refl => exact h
  | step _ ih => exact path_search_mono_succ ih

/-- A key that `lookup` finds is an entry of the association list. -/
theorem lookup_mem : ∀ {g : Graph} {k : Node} {ns : List Node},
    lookup g k = some ns → (k, ns) ∈ g := by
  intro g
  induction g with
  | nil => intro k ns h; exact Option.noConfusion h
  | cons p rest ih =>
    intro k ns h
    obtain ⟨a, ms⟩ := p
    rw [lookup] at h
    by_cases hk : k = a
    · rw [if_pos hk] at h
      rw [hk, Option.some.inj h]
      exact List.mem_cons_self _ _
    · rw [if_neg hk] at h
      exact List.mem_cons_of_mem _ (ih h)

/-! ### Validity of returned paths -/

theorem path_search_valid :
    ∀ (f : Nat) {a b : Node} {g : Graph} {P : List Node},
      path_search f a b g = .ok (some P) →
      P.head? = some a ∧ P.getLast? = some b ∧ List.Chain' (isEdge g) P := by
  intro f
  induction f with
  | zero =>
    intro a b g P h
    exact absurd h (by rw [path_search_zero]; exact fun hh => Except.noConfusion hh)
  | succ f0 ih =>
    intro a b g P h
    rcases path_search_eq_some h with ⟨hab, hP⟩ | ⟨hab, f1, hf, ns, hl, n, hn, p, hp, hP⟩
    · subst hP
      subst hab
      exact ⟨rfl, rfl, List.chain'_singleton a⟩
    · have hf1 : f1 = f0 := by omega
      rw [hf1] at hp
      obtain ⟨hh, hlast, hchain⟩ := ih hp
      subst hP
      cases p with
      | nil => exact absurd hh (by simp)
      | cons x p' =>
        have hx : x = n := by simpa using hh
        refine ⟨rfl, ?_, ?_⟩
        · rw [List.getLast?_cons_cons]
          exact hlast
        · rw [List.chain'_cons]
          refine ⟨?_, hchain⟩
          show x ∈ (lookup g a).getD []
          rw [hl, hx]
          exact hn

/-! ### Every suffix of a returned path is itself a returned path -/

theorem path_search_drop {b : Node} {g : Graph} :
    ∀ (j : Nat) {f : Nat} {a : Node} {P : List Node}
      (h : path_search f a b g = .ok (some P)) (hj : j < P.length),
      ∃ f', f' ≤ f ∧ path_search f' (P.get ⟨j, hj⟩) b g = .ok (some (P.drop j)) := by
  intro j
  induction j with
  | zero =>
    intro f a P h hj
    rcases path_search_eq_some h with ⟨_, hP⟩ | ⟨_, f1, _, ns, _, n, _, p, _, hP⟩
    · subst hP; exact ⟨f, le_refl f, h⟩
    · subst hP; exact ⟨f, le_refl f, h⟩
  | succ j0 ih =>
    intro f a P h hj
    rcases path_search_eq_some h with ⟨_, hP⟩ | ⟨_, f1, hf, ns, _, n, _, p, hp, hP⟩
    · subst hP; simp at hj
    · subst hP
      subst hf
      have hj' : j0 < p.length := by simpa using hj
      obtain ⟨f', hle, hcall⟩ := ih hp hj'
      exact ⟨f', Nat.le_succ_of_le hle, hcall⟩

/-! ### Returned paths never repeat a node -/

theorem path_search_nodup {f : Nat} {a b : Node} {g : Graph} {P : List Node}
    (h : path_search f a b g = .ok (some P)) : P.Nodup := by
  rw [List.nodup_iff_injective_get]
  intro i j hij
  obtain ⟨fi, hfi, hi⟩ := path_search_drop i.1 h i.2
  obtain ⟨fj, hfj, hj⟩ := path_search_drop j.1 h j.2
  have hgi : P.get ⟨i.1, i.2⟩ = P.get j := hij
  rw [hgi] at hi
  have hi' := path_search_mono_le hfi hi
  have hj' := path_search_mono_le hfj hj
  have hdrop : P.drop i.1 = P.drop j.1 :=
    Option.some.inj (Except.ok.inj (hi'.symm.trans hj'))
  have hlen : (P.drop i.1).length = (P.drop j.1).length := by rw [hdrop]
  rw [List.length_drop, List.length_drop] at hlen
  have hi2 := i.2
  have hj2 := j.2
  exact Fin.ext (by omega)

/-! ### `KeyError` freedom on key-closed graphs -/

theorem searchNbrs_ne_keyErr {rec : Node → Res} {s : Node} :
    ∀ {ns : List Node}, (∀ n ∈ ns, rec n ≠ .error .keyError) →
      searchNbrs rec s ns ≠ .error .keyError := by
  intro ns
  induction ns with
  | nil => intro _ h; exact Except.noConfusion h
  | cons n rest ih =>
    intro hrec h
    rw [searchNbrs_cons] at h
    cases hr : rec n with
    | error e =>
      rw [hr] at h
      cases e with
      | keyError => exact hrec n (List.mem_cons_self n rest) hr
      | outOfFuel => exact absurd (Except.error.inj h) (by simp)
    | ok o =>
      rw [hr] at h
      cases o with
      | none => exact ih (fun m hm => hrec m (List.mem_cons_of_mem n hm)) h
      | some p => exact Except.noConfusion h

theorem path_search_ne_keyErr {g : Graph} (hg : keysClosed g) :
    ∀ (f : Nat) {a b : Node}, (a = b ∨ (lookup g a).isSome) →
      path_search f a b g ≠ .error .keyError := by
  intro f
  induction f with
  | zero =>
    intro a b _ h
    rw [path_search_zero] at h
    exact absurd (Except.error.inj h) (by simp)
  | succ f0 ih =>
    intro a b ha h
    by_cases hab : a = b
    · rw [hab, path_search_self] at h; exact Except.noConfusion h
    · have hsome : (lookup g a).isSome := ha.resolve_left hab
      cases hl : lookup g a with
      | none => rw [hl] at hsome; exact absurd hsome (by simp)
      | some ns =>
        by_cases hns : ns = []
        · rw [hns] at hl
          rw [path_search_noNbrs f0 hab hl] at h
          exact Except.noConfusion h
        · rw [path_search_loop f0 hab hl hns] at h
          have hmem := lookup_mem hl
          refine searchNbrs_ne_keyErr ?_ h
          intro n hn
          exact ih (Or.inr (hg (a, ns) hmem n hn))

/-! ### Divergence on the cyclic examples -/

theorem cycle_oof : ∀ f : Nat,
    path_search f 1 3 cycleGraph = .error .outOfFuel ∧
    path_search f 2 3 cycleGraph = .error .outOfFuel := by
  intro f
  induction f with
  | zero => exact ⟨rfl, rfl⟩
  | succ f0 ih =>
    constructor
    · rw [path_search_loop f0 (by decide) (show lookup cycleGraph 1 = some [2] from rfl)
        (by decide), searchNbrs_cons, ih.2]
    · rw [path_search_loop f0 (by decide) (show lookup cycleGraph 2 = some [1] from rfl)
        (by decide), searchNbrs_cons, ih.1]

theorem sample_oof : ∀ f : Nat,
    path_search f 6 3 GRAPH = .error .outOfFuel ∧
    path_search f 1 3 GRAPH = .error .outOfFuel ∧
    path_search f 2 3 GRAPH = .error .outOfFuel ∧
    path_search f 4 3 GRAPH = .error .outOfFuel := by
  intro f
  induction f with
  | zero => exact ⟨rfl, rfl, rfl, rfl⟩
  | succ f0 ih =>
    obtain ⟨h6, h1, h2, h4⟩ := ih
    refine ⟨?_, ?_, ?_, ?_⟩
    · rw [path_search_loop f0 (by decide) (show lookup GRAPH 6 = some [1, 3] from rfl)
        (by decide), searchNbrs_cons, h1]
    · rw [path_search_loop f0 (by decide) (show lookup GRAPH 1 = some [2, 4] from rfl)
        (by decide), searchNbrs_cons, h2]
    · rw [path_search_loop f0 (by decide) (show lookup GRAPH 2 = some [5, 4, 1] from rfl)
        (by decide), searchNbrs_cons]
      cases f0 with
      | zero => rw [path_search_zero]
      | succ f1 =>
        rw [path_search_noNbrs f1 (by decide) (show lookup GRAPH 5 = some [] from rfl),
          searchNbrs_cons, h4]
    · rw [path_search_loop f0 (by decide) (show lookup GRAPH 4 = some [6, 3] from rfl)
        (by decide), searchNbrs_cons, h6]

/-! ### The claims -/

/-- C1: the claim says that on a graph with a cycle reachable from `start`
from which `end` is unreachable — e.g. `{1: [2], 2: [1]}` with `end = 3` —
`path_search` terminates and returns `None`. The code has no visited set:
on that very graph the call recurses forever (it runs out of fuel for every
fuel bound, i.e. in CPython it aborts with `RecursionError` instead of
returning `None`). -/
theorem C1_cycle_diverges :
    ∀ f : Nat, path_search f 1 3 cycleGraph = .error .outOfFuel :=
  fun f => (cycle_oof f).1

/-- C2: the claim says `path_search(6, 3, GRAPH)` terminates and returns a
valid path such as `[6, 3]`. The code explores neighbor `1` of `6` first and
falls into the cycle `6 → 1 → 2 → 4 → 6`, recursing forever (out of fuel for
every fuel bound) before ever trying neighbor `3`; the repository's own
`verify(6, 3, GRAPH, True)` test errors. -/
theorem C2_sample_diverges :
    ∀ f : Nat, path_search f 6 3 GRAPH = .error .outOfFuel :=
  fun f => (sample_oof f).1

/-- C3 counterexample: with `start = 0` absent from the empty graph and
`end = 1`, the call does not return `None`: the lookup `graph[start]`
raises `KeyError`. -/
theorem C3_counterexample :
    path_search 5 0 1 [] = .error .keyError ∧ path_search 5 0 1 [] ≠ .ok none := by
  constructor <;> decide

/-- C3 amended: if `start` is not a key of the graph and `start ≠ end`, the
call raises `KeyError` on the lookup `graph[start]` (rather than treating the
missing key as "no neighbors" and returning `None`). -/
theorem C3_missing_key_raises (f : Nat) (a b : Node) (g : Graph)
    (hab : a ≠ b) (hl : lookup g a = none) :
    path_search (f + 1) a b g = .error .keyError :=
  path_search_keyErr f hab hl

theorem C3_missing_key_raises_witness :
    (0 : Node) ≠ 1 ∧ lookup [] 0 = none ∧ path_search 3 0 1 [] = .error .keyError :=
  ⟨by decide, rfl, C3_missing_key_raises 2 0 1 [] (by decide) rfl⟩

/-- C4: for every graph `g` and node `n` — present as a key or not — the call
`path_search(n, n, g)` returns exactly the singleton path `[n]`: the
`start == end` test precedes the `graph[start]` lookup. -/
theorem C4_self_singleton (f : Nat) (n : Node) (g : Graph) :
    path_search (f + 1) n n g = .ok (some [n]) :=
  path_search_self f n g

/-- C5: whenever `path_search` returns a path `P` (not `None`), `P` starts at
`a`, ends at `b`, and every consecutive pair of `P` is a directed edge of the
graph (the second node is listed among the neighbors of the first). -/
theorem C5_path_valid (f : Nat) (a b : Node) (g : Graph) (P : List Node)
    (h : path_search f a b g = .ok (some P)) :
    P.head? = some a ∧ P.getLast? = some b ∧ List.Chain' (isEdge g) P :=
  path_search_valid f h

theorem C5_path_valid_witness :
    path_search 10 1 4 GRAPH = .ok (some [1, 2, 4]) ∧
      ([1, 2, 4] : List Node).head? = some 1 ∧
      ([1, 2, 4] : List Node).getLast? = some 4 ∧
      List.Chain' (isEdge GRAPH) [1, 2, 4] :=
  ⟨by decide, C5_path_valid 10 1 4 GRAPH [1, 2, 4] (by decide)⟩

/-- C6: if `a` is mapped to an empty neighbor list and `a ≠ b`, the call
returns `None` via the explicit `graph[start] == []` check. -/
theorem C6_no_neighbors_none (f : Nat) (a b : Node) (g : Graph)
    (hab : a ≠ b) (hl : lookup g a = some []) :
    path_search (f + 1) a b g = .ok none :=
  path_search_noNbrs f hab hl

theorem C6_no_neighbors_none_witness :
    (3 : Node) ≠ 2 ∧ lookup GRAPH 3 = some [] ∧ path_search 8 3 2 GRAPH = .ok none :=
  ⟨by decide, by decide, C6_no_neighbors_none 7 3 2 GRAPH (by decide) (by decide)⟩

/-- C7 counterexample: the claim says every call returns a list or `None`,
never an exception; but `path_search(7, 8, {})` raises `KeyError` (and cyclic
graphs additionally exhaust the recursion stack, per the C1 theorem). -/
theorem C7_counterexample :
    path_search 3 7 8 [] = .error .keyError ∧ path_search 3 7 8 [] ≠ .ok none := by
  constructor <;> decide

/-- C7 amended: "no path" is indeed reported as the normal return value
`None` and never by an exception, provided every neighbor listed in the graph
is itself a key and `start` is a key (or equals `end`); then no `KeyError`
can occur (the recursion may still exhaust the stack on cycles, and a missing
key does raise `KeyError`, so the claim as stated is false). -/
theorem C7_no_keyErr_on_closed (f : Nat) (a b : Node) (g : Graph)
    (hg : keysClosed g) (ha : a = b ∨ (lookup g a).isSome) :
    path_search f a b g ≠ .error .keyError :=
  path_search_ne_keyErr hg f ha

theorem C7_no_keyErr_on_closed_witness :
    keysClosed GRAPH ∧ ((3 : Node) = 2 ∨ (lookup GRAPH 3).isSome) ∧
      path_search 4 3 2 GRAPH ≠ .error .keyError :=
  ⟨by decide, by decide, C7_no_keyErr_on_closed 4 3 2 GRAPH (by decide) (by decide)⟩

/-- C8: if `start ≠ end`, `start` has a non-empty neighbor list, and the
recursive search from every neighbor returns `None`, then the `for` loop
falls through and the whole call returns Python's implicit `None`. -/
theorem C8_fallthrough_none (f : Nat) (a b : Node) (g : Graph) (ns : List Node)
    (hab : a ≠ b) (hl : lookup g a = some ns) (hns : ns ≠ [])
    (hall : ∀ n ∈ ns, path_search f n b g = .ok none) :
    path_search (f + 1) a b g = .ok none := by
  rw [path_search_loop f hab hl hns]
  exact searchNbrs_all_none hall

theorem C8_fallthrough_none_witness :
    (0 : Node) ≠ 2 ∧ lookup lineG 0 = some [1] ∧ ([1] : List Node) ≠ [] ∧
      (∀ n ∈ ([1] : List Node), path_search 1 n 2 lineG = .ok none) ∧
      path_search 2 0 2 lineG = .ok none :=
  ⟨by decide, by decide, by decide, by decide,
    C8_fallthrough_none 1 0 2 lineG [1] (by decide) (by decide) (by decide) (by decide)⟩

/-- C9: `path_search` is a pure function of `(fuel, start, end, graph)` — two
invocations on equal inputs are definitionally equal — and neighbors are
explored in adjacency-list order: if every neighbor before `n` fails with
`None` and the recursive search from `n` returns path `p`, the call returns
`[start] + p`, determined by that first success. -/
theorem C9_first_success_in_order (f : Nat) (a b : Node) (g : Graph)
    (ns1 : List Node) (n : Node) (ns2 : List Node) (p : List Node)
    (hab : a ≠ b) (hl : lookup g a = some (ns1 ++ n :: ns2))
    (hfail : ∀ m ∈ ns1, path_search f m b g = .ok none)
    (hsucc : path_search f n b g = .ok (some p)) :
    path_search (f + 1) a b g = .ok (some (a :: p)) := by
  rw [path_search_loop f hab hl (by simp), searchNbrs_skip_none hfail, searchNbrs_cons, hsucc]

theorem C9_first_success_in_order_witness :
    (2 : Node) ≠ 4 ∧ lookup GRAPH 2 = some ([5] ++ 4 :: [1]) ∧
      (∀ m ∈ ([5] : List Node), path_search 1 m 4 GRAPH = .ok none) ∧
      path_search 1 4 4 GRAPH = .ok (some [4]) ∧
      path_search 2 2 4 GRAPH = .ok (some [2, 4]) :=
  ⟨by decide, by decide, by decide, by decide,
    C9_first_success_in_order 1 2 4 GRAPH [5] 4 [1] [4]
      (by decide) (by decide) (by decide) (by decide)⟩

/-- C10: every path the code returns is simple — no node identifier occurs
twice — even though the code keeps no visited set: a repeated node would
require a nested call with the same arguments, which could only diverge. -/
theorem C10_path_nodup (f : Nat) (a b : Node) (g : Graph) (P : List Node)
    (h : path_search f a b g = .ok (some P)) : P.Nodup :=
  path_search_nodup h

theorem C10_path_nodup_witness :
    path_search 10 2 1 GRAPH = .ok (some [2, 4, 6, 1]) ∧ ([2, 4, 6, 1] : List Node).Nodup :=
  ⟨by decide, C10_path_nodup 10 2 1 GRAPH [2, 4, 6, 1] (by decide)⟩

end Q1
